import Mathlib

/-!
Shallow embedding of the API Testing Automation Suite
(`src/api_tests/core_tester.py`, `src/run_tests.py`).

Conventions of the embedding:
* Parsed JSON documents are values of the inductive type `Json`; Python
  dictionaries become association lists with first-match lookup (Python
  dict keys are unique, so first-match lookup agrees with dict lookup).
* `response.elapsed.total_seconds() * 1000` is modelled as the field
  `elapsed_ms : ℚ` of `Response` (exact rational milliseconds).
* `response.json()` either returns a parsed document or raises
  `json.JSONDecodeError`; this is modelled as `body : Option Json`
  (`none` models the decode error).
* The transport (`HttpClient.get` / `HttpClient.post`) either returns a
  `Response` or raises; it is modelled as a function into
  `Except String Response` where the `String` is the description of the
  raised failure (Python `str(exc)`).
* Python `"%.2f"`-style formatting of a float is modelled by `fmt2` on ℚ:
  round to the nearest hundredth and print with exactly two decimals.
* Python `str.split(".")` is modelled by `splitDot` (same semantics for a
  one-character separator: the empty string splits to a single empty
  segment, adjacent dots produce empty segments).
-/

namespace ApiSuite

/-- Parsed JSON values (the possible results of `response.json()`). -/
inductive Json where
  | null
  | bool (b : Bool)
  | num (q : ℚ)
  | str (s : String)
  | arr (elems : List Json)
  | obj (fields : List (String × Json))

/-- Dictionary lookup on an association list: Python `part in current`
followed by `current[part]`. -/
def lookupKey : List (String × Json) → String → Option Json
  | [], _ => none
  | (k, v) :: rest, key => if k = key then some v else lookupKey rest key

/-- Auxiliary for `splitDot`: accumulates the current segment (reversed). -/
def splitDotAux : List Char → List Char → List String
  | [], acc => [String.mk acc.reverse]
  | c :: rest, acc =>
      if c = '.' then String.mk acc.reverse :: splitDotAux rest []
      else splitDotAux rest (c :: acc)

/-- Python `path.split(".")`: the empty string yields one empty segment,
and each dot separates (possibly empty) segments. -/
def splitDot (s : String) : List String :=
  splitDotAux s.data []

/-- The loop body of `APITestSuite._has_json_path`: walk the split path
left to right; fail as soon as the current value is not a dict or the
next key is absent. -/
def walkPath : List String → Json → Bool
  | [], _ => true
  | part :: rest, current =>
      match current with
      | Json.obj fields =>
          match lookupKey fields part with
          | some v => walkPath rest v
          | none => false
      | _ => false

/-- `APITestSuite._has_json_path(payload, path)` from
`src/api_tests/core_tester.py`. -/
def has_json_path (payload : Json) (path : String) : Bool :=
  walkPath (splitDot path) payload

/-- The configuration fields consumed by the validator
(`Config.max_response_time_ms` from `src/api_tests/config.py`). -/
structure Config where
  max_response_time_ms : ℚ

/-- The fields of a transport-level response that the validator reads:
status code, elapsed time in milliseconds, and the parsed JSON body
(`none` models a `json.JSONDecodeError` from `response.json()`). -/
structure Response where
  status_code : Int
  elapsed_ms : ℚ
  body : Option Json

/-- The `TestResult` dataclass from `src/api_tests/core_tester.py`. -/
structure TestResult where
  name : String
  success : Bool
  status_code : Option Int := none
  response_time_ms : Option ℚ := none
  details : String := ""
  deriving DecidableEq

/-- Python `f-string` formatting of a float with two decimal places
(`"%.2f"`), on exact rationals: round the value to the nearest hundredth
(computed as the floor of `100 * q + 1/2` via integer arithmetic on the
numerator and denominator) and render with exactly two digits after the
decimal point. -/
def fmt2 (q : ℚ) : String :=
  let n : Int := Int.fdiv (200 * q.num + (q.den : Int)) (2 * (q.den : Int))
  let sign := if n < 0 then "-" else ""
  let m := n.natAbs
  sign ++ toString (m / 100) ++ "." ++
    (if m % 100 < 10 then "0" else "") ++ toString (m % 100)

/-- The status-mismatch failure message of `_validate_response`. -/
def statusMismatchMsg (expected actual : Int) : String :=
  "Expected status " ++ (toString expected ++ (", got " ++ (toString actual ++ ".")))

/-- The latency failure message of `_validate_response`. -/
def latencyMsg (elapsed limit : ℚ) : String :=
  "Response time " ++ (fmt2 elapsed ++ (" ms exceeded limit " ++ (fmt2 limit ++ " ms.")))

/-- The JSON-decode failure message of `_validate_response`. -/
def notJsonMsg : String := "Response is not valid JSON."

/-- The missing-path failure message of `_validate_response`. -/
def missingPathMsg (path : String) : String := "Missing JSON path: " ++ path

/-- The transport-failure message of `run_get_test` / `run_post_test`
(`Exception while executing test: ...`). -/
def excMsg (exc : String) : String := "Exception while executing test: " ++ exc

/-- The status-code check of `_validate_response`: appends one message
when `status_code != expected_status`. -/
def statusCheckMsgs (expected_status status_code : Int) : List String :=
  if status_code ≠ expected_status then [statusMismatchMsg expected_status status_code]
  else []

/-- The response-time check of `_validate_response`: appends one message
when `elapsed_ms > max_response_time_ms` (strict comparison). -/
def latencyCheckMsgs (max_response_time_ms elapsed_ms : ℚ) : List String :=
  if elapsed_ms > max_response_time_ms then [latencyMsg elapsed_ms max_response_time_ms]
  else []

/-- The JSON-structure check of `_validate_response`: skipped when
`required_json_paths` is `None` or empty (Python truthiness of the list);
a decode failure yields one message and skips the path checks; otherwise
each required path missing from the payload yields its own message, in
the order the paths were supplied. -/
def jsonCheckMsgs (body : Option Json) (required_json_paths : Option (List String)) :
    List String :=
  match required_json_paths with
  | none => []
  | some [] => []
  | some paths =>
      match body with
      | none => [notJsonMsg]
      | some payload =>
          (paths.filter fun p => !(has_json_path payload p)).map missingPathMsg

/-- The `details_list` accumulated by `_validate_response` before the
all-passed sentinel is considered: status check, then latency check, then
JSON-structure check, in source order. -/
def detailsListOf (cfg : Config) (resp : Response) (expected_status : Int)
    (required_json_paths : Option (List String)) : List String :=
  statusCheckMsgs expected_status resp.status_code ++
    latencyCheckMsgs cfg.max_response_time_ms resp.elapsed_ms ++
    jsonCheckMsgs resp.body required_json_paths

/-- Python `" ".join(details_list)`. -/
def joinSpace : List String → String
  | [] => ""
  | [s] => s
  | s :: rest => s ++ " " ++ joinSpace rest

/-- `APITestSuite._validate_response`: `success` is true exactly when no
failure entry was produced, and `details` joins the failure entries (or
the sentinel when there are none) with single spaces. -/
def validate_response (cfg : Config) (name : String) (resp : Response)
    (expected_status : Int) (required_json_paths : Option (List String)) : TestResult :=
  { name := name
    success := (detailsListOf cfg resp expected_status required_json_paths).isEmpty
    status_code := some resp.status_code
    response_time_ms := some resp.elapsed_ms
    details :=
      joinSpace
        (if (detailsListOf cfg resp expected_status required_json_paths).isEmpty
         then ["All checks passed."]
         else detailsListOf cfg resp expected_status required_json_paths) }

/-- The `TestResult` built in the `except` branch of `run_get_test` /
`run_post_test`: only `name`, `success := False` and `details` are set,
so `status_code` and `response_time_ms` keep their `None` defaults. -/
def transportFailureResult (name exc : String) : TestResult :=
  { name := name
    success := false
    details := excMsg exc }

/-- `APITestSuite.run_get_test`: perform the request through the client,
validate on success, convert any raised failure into a failing result,
and append the result to `self.results`. Returns the result and the
updated result list. -/
def run_get_test (cfg : Config) (client_get : String → Except String Response)
    (results : List TestResult) (name path : String) (expected_status : Int)
    (required_json_paths : Option (List String)) :
    TestResult × List TestResult :=
  let result :=
    match client_get path with
    | Except.ok response =>
        validate_response cfg name response expected_status required_json_paths
    | Except.error exc => transportFailureResult name exc
  (result, results ++ [result])

/-- `APITestSuite.run_post_test`: as `run_get_test`, with a payload. -/
def run_post_test (cfg : Config) (client_post : String → Json → Except String Response)
    (results : List TestResult) (name path : String) (payload : Json)
    (expected_status : Int) (required_json_paths : Option (List String)) :
    TestResult × List TestResult :=
  let result :=
    match client_post path payload with
    | Except.ok response =>
        validate_response cfg name response expected_status required_json_paths
    | Except.error exc => transportFailureResult name exc
  (result, results ++ [result])

/-- The latency column shared by `write_report` and `print_summary`:
Python renders `res.response_time_ms` with two decimals when the field is
truthy (`if res.response_time_ms`), so both `None` and a present `0.0`
fall to the `N/A` placeholder. -/
def truthyTimeStr (t : Option ℚ) : String :=
  match t with
  | some v => if v = 0 then "N/A" else fmt2 v
  | none => "N/A"

/-- Python `str(...)` of the optional status code (`str(None)` is
`"None"`). -/
def optIntStr : Option Int → String
  | some code => toString code
  | none => "None"

/-- One line of the persisted report built by `APITestSuite.write_report`. -/
def renderReportLine (res : TestResult) : String :=
  let status_str := if res.success then "PASS" else "FAIL"
  status_str ++ " | " ++ res.name ++ " | status=" ++ optIntStr res.status_code ++
    " | time=" ++ truthyTimeStr res.response_time_ms ++ " ms | " ++ res.details

/-- The list of lines accumulated by the loop in
`APITestSuite.write_report` before being joined with newlines. -/
def write_report_lines (results : List TestResult) : List String :=
  results.foldl (fun lines res => lines ++ [renderReportLine res]) []

/-- Python left-justified padding to a minimum width
(format specifications of the shape `:<5` and `:<40`). -/
def padRight (s : String) (w : Nat) : String :=
  s ++ String.mk (List.replicate (w - s.data.length) ' ')

/-- One per-result line of the console summary printed by
`print_summary` in `src/run_tests.py`. -/
def renderSummaryLine (res : TestResult) : String :=
  let status := if res.success then "PASS" else "FAIL"
  padRight status 5 ++ " | " ++ padRight res.name 40 ++ " | status=" ++
    optIntStr res.status_code ++ " | time=" ++ truthyTimeStr res.response_time_ms ++ " ms"


/-- Resolution of a segment list through nested mappings: the spec-side
description of the JSON Path Checker walk. -/
inductive PathResolves : List String → Json → Prop where
  | nil (d : Json) : PathResolves [] d
  | cons (key : String) (rest : List String) (fields : List (String × Json)) (v : Json) :
      lookupKey fields key = some v → PathResolves rest v →
      PathResolves (key :: rest) (Json.obj fields)


/-- Spec-side description of the JSON-structure failure entries: nothing
when no required paths are supplied, the single decode-failure message
when the body fails to parse, and otherwise one missing-path message per
required path absent from the payload, in the order the paths were
supplied. Stated separately from `jsonCheckMsgs` so the claims about the
shape of `details` can be read off directly. -/
def specJsonMsgs (required : Option (List String)) (body : Option Json) : List String :=
  match required, body with
  | none, _ => []
  | some [], _ => []
  | some _, none => [notJsonMsg]
  | some paths, some payload =>
      (paths.filter fun p => !(has_json_path payload p)).map missingPathMsg


/-- The number of the validator's checks (status, latency, JSON structure)
that a response violates. -/
def violatedCheckCount (cfg : Config) (resp : Response) (expected_status : Int)
    (required_json_paths : Option (List String)) : Nat :=
  (if resp.status_code ≠ expected_status then 1 else 0) +
  (if resp.elapsed_ms > cfg.max_response_time_ms then 1 else 0) +
  (if jsonCheckMsgs resp.body required_json_paths ≠ [] then 1 else 0)


def sampleBody : Json := Json.obj [("data", Json.obj [("id", Json.num 7)])]

theorem data_append (s t : String) : (s ++ t).data = s.data ++ t.data := rfl

theorem head?_of_append (s t : String) (c : Char)
    (h : s.data.head? = some c) : (s ++ t).data.head? = some c := by
  rw [data_append]
  cases hd : s.data with
  | nil => rw [hd] at h; exact absurd h (by simp)
  | cons a l => rw [hd] at h; simp at h ⊢; exact h

theorem joinSpace_head? (s : String) (rest : List String) (c : Char)
    (h : s.data.head? = some c) :
    (joinSpace (s :: rest)).data.head? = some c := by
  cases rest with
  | nil => exact h
  | cons b bs =>
      show ((s ++ " ") ++ joinSpace (b :: bs)).data.head? = some c
      exact head?_of_append _ _ _ (head?_of_append _ _ _ h)

theorem joinSpace_ne_sentinel (s : String) (rest : List String) (c : Char)
    (h : s.data.head? = some c) (hc : c ≠ 'A') :
    joinSpace (s :: rest) ≠ "All checks passed." := by
  intro heq
  have h1 := joinSpace_head? s rest c h
  rw [heq] at h1
  have h2 : some 'A' = some c := h1
  exact hc (Option.some.inj h2).symm

/-- Every failure message produced by the validator starts with the
letter E, R or M (in particular, never with the A of the sentinel). -/
theorem mem_detailsListOf_head (cfg : Config) (resp : Response) (es : Int)
    (req : Option (List String)) (msg : String)
    (h : msg ∈ detailsListOf cfg resp es req) :
    msg.data.head? = some 'E' ∨ msg.data.head? = some 'R' ∨ msg.data.head? = some 'M' := by
  unfold detailsListOf at h
  rcases List.mem_append.mp h with h1 | h2
  · rcases List.mem_append.mp h1 with hs | hl
    · left
      unfold statusCheckMsgs at hs
      split at hs
      · rw [List.mem_singleton.mp hs]
        exact head?_of_append _ _ _ rfl
      · exact absurd hs (List.not_mem_nil _)
    · right; left
      unfold latencyCheckMsgs at hl
      split at hl
      · rw [List.mem_singleton.mp hl]
        exact head?_of_append _ _ _ rfl
      · exact absurd hl (List.not_mem_nil _)
  · unfold jsonCheckMsgs at h2
    split at h2
    · exact absurd h2 (List.not_mem_nil _)
    · exact absurd h2 (List.not_mem_nil _)
    · rename_i paths _
      cases hb : resp.body with
      | none =>
          rw [hb] at h2
          right; left
          rw [List.mem_singleton.mp h2]
          rfl
      | some payload =>
          rw [hb] at h2
          right; right
          rcases List.mem_map.mp h2 with ⟨p, _, hp⟩
          rw [← hp]
          exact head?_of_append _ _ _ rfl

theorem walkPath_iff (segs : List String) (d : Json) :
    walkPath segs d = true ↔ PathResolves segs d := by
  induction segs generalizing d with
  | nil => simpa [walkPath] using PathResolves.nil d
  | cons k rest ih =>
      cases d with
      | obj fields =>
          cases hlk : lookupKey fields k with
          | none =>
              simp [walkPath, hlk]
              intro h
              cases h with
              | cons _ _ _ v hl _ => rw [hlk] at hl; exact Option.noConfusion hl
          | some v =>
              simp [walkPath, hlk, ih]
              constructor
              · exact fun h => PathResolves.cons k rest fields v hlk h
              · intro h
                cases h with
                | cons _ _ _ w hl hr =>
                    rw [hlk] at hl
                    rw [← Option.some.inj hl] at hr
                    exact hr
      | null =>
          simp [walkPath]
          intro h; cases h
      | bool b =>
          simp [walkPath]
          intro h; cases h
      | num q =>
          simp [walkPath]
          intro h; cases h
      | str s =>
          simp [walkPath]
          intro h; cases h
      | arr elems =>
          simp [walkPath]
          intro h; cases h


theorem jsonCheckMsgs_eq (body : Option Json) (req : Option (List String)) :
    jsonCheckMsgs body req = specJsonMsgs req body := by
  cases req with
  | none => rfl
  | some l =>
      cases l with
      | nil => cases body <;> rfl
      | cons p ps => cases body <;> rfl

theorem detailsListOf_eq (cfg : Config) (resp : Response) (es : Int)
    (req : Option (List String)) :
    detailsListOf cfg resp es req =
      (if resp.status_code ≠ es then [statusMismatchMsg es resp.status_code] else []) ++
      (if resp.elapsed_ms > cfg.max_response_time_ms
       then [latencyMsg resp.elapsed_ms cfg.max_response_time_ms] else []) ++
      specJsonMsgs req resp.body := by
  unfold detailsListOf statusCheckMsgs latencyCheckMsgs
  rw [jsonCheckMsgs_eq]

theorem detailsListOf_ne_nil_of_two (cfg : Config) (resp : Response) (es : Int)
    (req : Option (List String)) (h : 2 ≤ violatedCheckCount cfg resp es req) :
    detailsListOf cfg resp es req ≠ [] := by
  intro hnil
  unfold detailsListOf at hnil
  rcases List.append_eq_nil.mp hnil with ⟨h12, h3⟩
  rcases List.append_eq_nil.mp h12 with ⟨hs, hl⟩
  unfold violatedCheckCount at h
  have e1 : (if resp.status_code ≠ es then 1 else 0) = 0 := by
    by_cases hc : resp.status_code ≠ es
    · rw [statusCheckMsgs, if_pos hc] at hs; exact absurd hs (by simp)
    · rw [if_neg hc]
  have e2 : (if resp.elapsed_ms > cfg.max_response_time_ms then 1 else 0) = 0 := by
    by_cases hc : resp.elapsed_ms > cfg.max_response_time_ms
    · rw [latencyCheckMsgs, if_pos hc] at hl; exact absurd hl (by simp)
    · rw [if_neg hc]
  have e3 : (if jsonCheckMsgs resp.body req ≠ [] then 1 else 0) = 0 :=
    if_neg (fun hn => hn h3)
  rw [e1, e2, e3] at h
  exact absurd h (by decide)

theorem validate_success_eq (cfg : Config) (name : String) (resp : Response)
    (es : Int) (req : Option (List String)) :
    (validate_response cfg name resp es req).success =
      (detailsListOf cfg resp es req).isEmpty := rfl

theorem validate_details_of_ne_nil (cfg : Config) (name : String) (resp : Response)
    (es : Int) (req : Option (List String)) (h : detailsListOf cfg resp es req ≠ []) :
    (validate_response cfg name resp es req).details =
      joinSpace (detailsListOf cfg resp es req) := by
  have hemp : (detailsListOf cfg resp es req).isEmpty = false := by
    cases hd : detailsListOf cfg resp es req with
    | nil => exact absurd hd h
    | cons a l => rfl
  show joinSpace (if (detailsListOf cfg resp es req).isEmpty then _ else _) = _
  rw [hemp]
  simp


/-- Claim C1: when the transport raises any failure, `run_get_test` and
`run_post_test` do not propagate it to their caller: they return (and
append to the result list) a verdict with `success = false`, `status_code`
and `response_time_ms` both absent, and `details` embedding the
description of the raised failure. -/
theorem transport_failure_yields_failing_verdict
    (cfg : Config) (client_get : String → Except String Response)
    (client_post : String → Json → Except String Response)
    (results : List TestResult) (name path : String) (payload : Json)
    (es : Int) (req : Option (List String)) (exc : String)
    (hget : client_get path = Except.error exc)
    (hpost : client_post path payload = Except.error exc) :
    run_get_test cfg client_get results name path es req =
      (transportFailureResult name exc, results ++ [transportFailureResult name exc]) ∧
    run_post_test cfg client_post results name path payload es req =
      (transportFailureResult name exc, results ++ [transportFailureResult name exc]) ∧
    (transportFailureResult name exc).success = false ∧
    (transportFailureResult name exc).status_code = none ∧
    (transportFailureResult name exc).response_time_ms = none ∧
    (transportFailureResult name exc).details = "Exception while executing test: " ++ exc := by
  refine ⟨?_, ?_, rfl, rfl, rfl, rfl⟩
  · unfold run_get_test; rw [hget]
  · unfold run_post_test; rw [hpost]

theorem transport_failure_yields_failing_verdict_witness :
    run_get_test ⟨800⟩ (fun _ => Except.error "boom") [] "t" "/users/2" 200 none =
      (transportFailureResult "t" "boom", [] ++ [transportFailureResult "t" "boom"]) ∧
    run_post_test ⟨800⟩ (fun _ _ => Except.error "boom") [] "t" "/users/2" Json.null 200 none =
      (transportFailureResult "t" "boom", [] ++ [transportFailureResult "t" "boom"]) ∧
    (transportFailureResult "t" "boom").success = false ∧
    (transportFailureResult "t" "boom").status_code = none ∧
    (transportFailureResult "t" "boom").response_time_ms = none ∧
    (transportFailureResult "t" "boom").details = "Exception while executing test: " ++ "boom" :=
  transport_failure_yields_failing_verdict ⟨800⟩ (fun _ => Except.error "boom")
    (fun _ _ => Except.error "boom") [] "t" "/users/2" Json.null 200 none "boom" rfl rfl

/-- Claim C2: `has_json_path` is a total boolean function that returns
`true` exactly when splitting the path on dots and walking the segments
left to right through the document resolves every segment as a key of a
mapping; as soon as an intermediate value is not a mapping or a segment
key is absent, the walk fails and the function returns `false`. -/
theorem has_json_path_iff_resolves (d : Json) (p : String) :
    has_json_path d p = true ↔ PathResolves (splitDot p) d :=
  walkPath_iff (splitDot p) d

/-- Claim C3 counterexample: on a document that is a mapping containing
an empty-string key, `has_path` with the empty path returns `true`, not
`false` as the claim states: Python splits the empty path into the single
empty segment and resolves it as a key. -/
theorem empty_path_found_on_empty_key :
    has_json_path (Json.obj [("", Json.null)]) "" = true := rfl

/-- Claim C3 (amended): `has_path(d, "")` treats the empty path as the
single segment consisting of the empty string, so it returns `true`
exactly when `d` is a mapping containing the empty-string key, and
`false` for every other document. -/
theorem empty_path_resolves_empty_key (d : Json) :
    has_json_path d "" =
      (match d with
       | Json.obj fields => (lookupKey fields "").isSome
       | _ => false) := by
  have hsplit : splitDot "" = [""] := rfl
  unfold has_json_path
  rw [hsplit]
  cases d with
  | obj fields =>
      show (match lookupKey fields "" with
            | some v => walkPath [] v
            | none => false) = _
      cases hlk : lookupKey fields "" <;> simp [walkPath, hlk]
  | null => rfl
  | bool b => rfl
  | num q => rfl
  | str s => rfl
  | arr elems => rfl

/-- Claim C4: when a response violates more than one check
simultaneously, the verdict fails and its details join one message per
violated check with no short-circuit: the status-mismatch message, then
the latency message, then either the decode-failure message or one
message per missing required path in the supplied order. -/
theorem multi_violation_details_complete (cfg : Config) (name : String) (resp : Response)
    (es : Int) (req : Option (List String))
    (h : 2 ≤ violatedCheckCount cfg resp es req) :
    (validate_response cfg name resp es req).success = false ∧
    (validate_response cfg name resp es req).details =
      joinSpace
        ((if resp.status_code ≠ es then [statusMismatchMsg es resp.status_code] else []) ++
         (if resp.elapsed_ms > cfg.max_response_time_ms
          then [latencyMsg resp.elapsed_ms cfg.max_response_time_ms] else []) ++
         specJsonMsgs req resp.body) := by
  have hne := detailsListOf_ne_nil_of_two cfg resp es req h
  constructor
  · rw [validate_success_eq]
    cases hd : detailsListOf cfg resp es req with
    | nil => exact absurd hd hne
    | cons a l => rfl
  · rw [validate_details_of_ne_nil cfg name resp es req hne, detailsListOf_eq]


theorem multi_violation_details_complete_witness :
    2 ≤ violatedCheckCount ⟨800⟩ ⟨404, 850, some sampleBody⟩ 200 (some ["data.id", "data.email"]) ∧
    ((validate_response ⟨800⟩ "t" ⟨404, 850, some sampleBody⟩ 200 (some ["data.id", "data.email"])).success = false ∧
      (validate_response ⟨800⟩ "t" ⟨404, 850, some sampleBody⟩ 200 (some ["data.id", "data.email"])).details =
        joinSpace
          ((if (404 : Int) ≠ 200 then [statusMismatchMsg 200 404] else []) ++
           (if (850 : ℚ) > 800 then [latencyMsg 850 800] else []) ++
           specJsonMsgs (some ["data.id", "data.email"]) (some sampleBody))) :=
  ⟨by decide,
   multi_violation_details_complete ⟨800⟩ "t" ⟨404, 850, some sampleBody⟩ 200
     (some ["data.id", "data.email"]) (by decide)⟩

/-- Claim C5: every verdict constructed by validation or by the
transport-failure path has `success = true` exactly when `details` is the
fixed passing sentinel (so any failure message forces `success = false`),
and its `status_code` and `response_time_ms` are present or absent
together. -/
theorem verdict_invariant (v : TestResult)
    (h : (∃ cfg name resp es req, v = validate_response cfg name resp es req) ∨
         ∃ name exc, v = transportFailureResult name exc) :
    (v.success = true ↔ v.details = "All checks passed.") ∧
    (v.status_code.isSome ↔ v.response_time_ms.isSome) := by
  rcases h with ⟨cfg, name, resp, es, req, rfl⟩ | ⟨name, exc, rfl⟩
  · constructor
    · show ((detailsListOf cfg resp es req).isEmpty = true ↔ _)
      cases hdl : detailsListOf cfg resp es req with
      | nil =>
          simp only [validate_response, hdl]
          constructor
          · intro _; rfl
          · intro _; rfl
      | cons m rest =>
          have hmem : m ∈ detailsListOf cfg resp es req := by
            rw [hdl]; exact List.mem_cons_self _ _
          have hne : joinSpace (m :: rest) ≠ "All checks passed." := by
            rcases mem_detailsListOf_head cfg resp es req m hmem with h1 | h1 | h1
            · exact joinSpace_ne_sentinel m rest 'E' h1 (by decide)
            · exact joinSpace_ne_sentinel m rest 'R' h1 (by decide)
            · exact joinSpace_ne_sentinel m rest 'M' h1 (by decide)
          simp only [validate_response, hdl]
          constructor
          · intro hfalse; exact absurd hfalse (by simp)
          · intro hdet; exact absurd hdet hne
    · constructor
      · intro _; rfl
      · intro _; rfl
  · constructor
    · have hne : excMsg exc ≠ "All checks passed." := by
        intro heq
        have h1 : (excMsg exc).data.head? = some 'E' := head?_of_append _ _ _ rfl
        rw [heq] at h1
        exact absurd (Option.some.inj h1).symm (by decide)
      constructor
      · intro hfalse; exact absurd hfalse (by simp [transportFailureResult])
      · intro hdet; exact absurd hdet hne
    · constructor
      · intro hsc; exact absurd hsc (by simp [transportFailureResult])
      · intro hrt; exact absurd hrt (by simp [transportFailureResult])

theorem verdict_invariant_witness :
    ((validate_response ⟨800⟩ "t" ⟨200, 50, none⟩ 200 none).success = true ↔
      (validate_response ⟨800⟩ "t" ⟨200, 50, none⟩ 200 none).details = "All checks passed.") ∧
    ((validate_response ⟨800⟩ "t" ⟨200, 50, none⟩ 200 none).status_code.isSome ↔
      (validate_response ⟨800⟩ "t" ⟨200, 50, none⟩ 200 none).response_time_ms.isSome) :=
  verdict_invariant _ (Or.inl ⟨⟨800⟩, "t", ⟨200, 50, none⟩, 200, none, rfl⟩)

/-- Claim C6: the latency check fails exactly when the elapsed time
strictly exceeds the configured limit; a response exactly at the limit
passes the check and contributes no latency failure message to the
details list, whose value is then just the status and JSON entries. -/
theorem latency_at_limit_passes (cfg : Config) (name : String) (resp : Response)
    (es : Int) (req : Option (List String))
    (hlim : resp.elapsed_ms = cfg.max_response_time_ms) :
    latencyCheckMsgs cfg.max_response_time_ms resp.elapsed_ms = [] ∧
    detailsListOf cfg resp es req =
      statusCheckMsgs es resp.status_code ++ jsonCheckMsgs resp.body req ∧
    (∀ elapsed : ℚ,
        latencyCheckMsgs cfg.max_response_time_ms elapsed ≠ [] ↔
          cfg.max_response_time_ms < elapsed) ∧
    (validate_response cfg name resp es req).success =
      (statusCheckMsgs es resp.status_code ++ jsonCheckMsgs resp.body req).isEmpty := by
  have hl : latencyCheckMsgs cfg.max_response_time_ms resp.elapsed_ms = [] := by
    unfold latencyCheckMsgs
    rw [hlim]
    simp
  refine ⟨hl, ?_, ?_, ?_⟩
  · unfold detailsListOf; rw [hl]; simp
  · intro e
    by_cases hgt : cfg.max_response_time_ms < e
    · simp [latencyCheckMsgs, hgt]
    · simp [latencyCheckMsgs, hgt]
  · rw [validate_success_eq]
    unfold detailsListOf
    rw [hl]
    simp

theorem latency_at_limit_passes_witness :
    latencyCheckMsgs (⟨800⟩ : Config).max_response_time_ms (⟨200, 800, none⟩ : Response).elapsed_ms = [] ∧
    detailsListOf ⟨800⟩ ⟨200, 800, none⟩ 200 none =
      statusCheckMsgs 200 (⟨200, 800, none⟩ : Response).status_code ++
        jsonCheckMsgs (⟨200, 800, none⟩ : Response).body none ∧
    (∀ elapsed : ℚ,
        latencyCheckMsgs (⟨800⟩ : Config).max_response_time_ms elapsed ≠ [] ↔
          (⟨800⟩ : Config).max_response_time_ms < elapsed) ∧
    (validate_response ⟨800⟩ "t" ⟨200, 800, none⟩ 200 none).success =
      (statusCheckMsgs 200 (⟨200, 800, none⟩ : Response).status_code ++
        jsonCheckMsgs (⟨200, 800, none⟩ : Response).body none).isEmpty :=
  latency_at_limit_passes ⟨800⟩ "t" ⟨200, 800, none⟩ 200 none rfl


/-- Claim C7 (code bug): `write_report` and `print_summary` guard the
latency column with Python truthiness of the float, so a present latency
of exactly 0.0 ms renders the `N/A` placeholder even though the
formatter would render `0.00`; a nonzero present latency renders
numerically and an absent latency renders `N/A`. -/
theorem present_zero_latency_renders_na :
    truthyTimeStr (some 0) = "N/A" ∧
    truthyTimeStr none = "N/A" ∧
    fmt2 0 = "0.00" ∧
    renderReportLine
        { name := "t", success := true, status_code := some 200,
          response_time_ms := some 0, details := "All checks passed." } =
      "PASS | t | status=200 | time=N/A ms | All checks passed." ∧
    renderSummaryLine
        { name := "t", success := true, status_code := some 200,
          response_time_ms := some 0, details := "All checks passed." } =
      padRight "PASS" 5 ++ " | " ++ padRight "t" 40 ++ " | status=200 | time=N/A ms" ∧
    renderReportLine
        { name := "t", success := true, status_code := some 200,
          response_time_ms := some 50, details := "All checks passed." } =
      "PASS | t | status=200 | time=50.00 ms | All checks passed." := by
  refine ⟨rfl, rfl, by decide, by decide, rfl, by decide⟩

theorem foldl_append_map (f : TestResult → String) (xs : List TestResult)
    (init : List String) :
    xs.foldl (fun lines res => lines ++ [f res]) init = init ++ xs.map f := by
  induction xs generalizing init with
  | nil => simp
  | cons x xs ih => simp [List.foldl_cons, ih]

/-- Claim C8: report rendering is order-preserving: the report has
exactly one line per accumulated verdict, the line at each index renders
the verdict at the same index of the run's result sequence, and each test
invocation appends its verdict at the end of that sequence. -/
theorem report_order_preserving (results : List TestResult) (i : Nat) :
    (write_report_lines results).length = results.length ∧
    (write_report_lines results)[i]? = (results[i]?).map renderReportLine ∧
    ∀ (cfg : Config) (client_get : String → Except String Response)
      (name path : String) (es : Int) (req : Option (List String)),
        (run_get_test cfg client_get results name path es req).2 =
          results ++ [(run_get_test cfg client_get results name path es req).1] := by
  have hw : write_report_lines results = results.map renderReportLine := by
    unfold write_report_lines
    rw [foldl_append_map]
    simp
  refine ⟨?_, ?_, ?_⟩
  · rw [hw, List.length_map]
  · rw [hw, List.getElem?_map]
  · intro cfg client_get name path es req
    rfl

/-- Claim C9: validation is deterministic: two responses that agree on
status code, elapsed time and body yield identical verdicts, field for
field, under the same expectation set. -/
theorem validate_response_deterministic (cfg : Config) (name : String)
    (r1 r2 : Response) (es : Int) (req : Option (List String))
    (h1 : r1.status_code = r2.status_code) (h2 : r1.elapsed_ms = r2.elapsed_ms)
    (h3 : r1.body = r2.body) :
    validate_response cfg name r1 es req = validate_response cfg name r2 es req := by
  have : r1 = r2 := by
    obtain ⟨a, b, c⟩ := r1
    obtain ⟨d, e, f⟩ := r2
    dsimp only at h1 h2 h3
    rw [h1, h2, h3]
  rw [this]

theorem validate_response_deterministic_witness :
    validate_response ⟨800⟩ "t" ⟨200, 50, some sampleBody⟩ 200 (some ["data.id"]) =
      validate_response ⟨800⟩ "t" ⟨200, 50, some sampleBody⟩ 200 (some ["data.id"]) :=
  validate_response_deterministic ⟨800⟩ "t" ⟨200, 50, some sampleBody⟩
    ⟨200, 50, some sampleBody⟩ 200 (some ["data.id"]) rfl rfl rfl

/-- Claim C10: in every failing verdict the details are exactly the
failure messages joined by single spaces, in fixed order: the
status-mismatch message first, then the latency message, then either the
decode-failure message or the missing-path messages in the order the
required paths were supplied. -/
theorem failing_details_exact (cfg : Config) (name : String) (resp : Response)
    (es : Int) (req : Option (List String))
    (h : (validate_response cfg name resp es req).success = false) :
    (validate_response cfg name resp es req).details =
      joinSpace
        ((if resp.status_code ≠ es then [statusMismatchMsg es resp.status_code] else []) ++
         (if resp.elapsed_ms > cfg.max_response_time_ms
          then [latencyMsg resp.elapsed_ms cfg.max_response_time_ms] else []) ++
         specJsonMsgs req resp.body) := by
  have hne : detailsListOf cfg resp es req ≠ [] := by
    intro hnil
    rw [validate_success_eq, hnil] at h
    exact absurd h (by simp)
  rw [validate_details_of_ne_nil cfg name resp es req hne, detailsListOf_eq]

theorem failing_details_exact_witness :
    (validate_response ⟨800⟩ "t" ⟨200, 50, none⟩ 200 (some ["error"])).success = false ∧
    (validate_response ⟨800⟩ "t" ⟨200, 50, none⟩ 200 (some ["error"])).details =
      joinSpace
        ((if (200 : Int) ≠ 200 then [statusMismatchMsg 200 200] else []) ++
         (if (50 : ℚ) > 800 then [latencyMsg 50 800] else []) ++
         specJsonMsgs (some ["error"]) none) :=
  ⟨by decide,
   failing_details_exact ⟨800⟩ "t" ⟨200, 50, none⟩ 200 (some ["error"]) (by decide)⟩

end ApiSuite
